import Mathlib

/-!
Verification of the vibe-dj indexing pipeline, similarity-index maintenance
policy and playlist generator, shallowly embedded from the Python sources
`core/indexer.py`, `core/database.py`, `core/similarity.py`, `core/analyzer.py`
and `services/playlist_generator.py`.

Modelling conventions:
* Python floats (file mtimes, BPM, feature components, the change-ratio
  division) are modelled as exact rationals.
* The SQLite store is modelled as an in-order list of rows with an
  auto-increment counter; `add_song`'s upsert, the feature attachment and the
  queries are translated clause by clause.
* Fallible external effects (mutagen, librosa, FAISS file I/O) are modelled by
  explicit environment functions returning `Option`, and by `Faults` flags for
  the index load/add/save steps; a raised exception is an `Except.error`.
-/

namespace VibeDJ

/-- Decidable equality for `Except` results, so that concrete runs of the
fallible operations can be settled by `decide`. -/
instance {ε α : Type} [DecidableEq ε] [DecidableEq α] :
    DecidableEq (Except ε α) := fun a b =>
  match a, b with
  | .ok x, .ok y =>
    if h : x = y then .isTrue (by rw [h])
    else .isFalse (fun hc => h (by cases hc; rfl))
  | .ok _, .error _ => .isFalse (fun hc => by cases hc)
  | .error _, .ok _ => .isFalse (fun hc => by cases hc)
  | .error e, .error e' =>
    if h : e = e' then .isTrue (by rw [h])
    else .isFalse (fun hc => h (by cases hc; rfl))

/-- Python `str.lower`, character by character (ASCII case folding). -/
def pyLower (s : String) : String :=
  String.mk (s.data.map Char.toLower)

/-- Python `str.endswith` for a single suffix. -/
def pyEndsWith (s suffix : String) : Bool :=
  suffix.data.isSuffixOf s.data

/-- Python `os.path.basename`: the part of the path after the last slash. -/
def basename (p : String) : String :=
  String.mk ((p.data.reverse.takeWhile (fun c => c ≠ '/')).reverse)

/-- Python `os.path.join root f` in the ordinary case (no absolute `f`,
no trailing separator on `root`). -/
def pathJoin (root f : String) : String :=
  root ++ "/" ++ f

/-- Python truthiness of an optional string: a missing key and the empty
string are both falsy. -/
def truthy (o : Option String) : Option String :=
  match o with
  | none => none
  | some s => if s = "" then none else some s

/-- `Features` row: the stored feature vector and BPM
(`models`, used by `core/analyzer.py` and `core/indexer.py`). -/
structure Features where
  feature_vector : List ℚ
  bpm : ℚ
deriving DecidableEq

/-- Tag metadata of a song (`title`, `artist`, `album`, `genre`). -/
structure SongMeta where
  title : String
  artist : String
  album : String
  genre : String
deriving DecidableEq

/-- One row of the `songs` table, joined with its optional `features` row. -/
structure Row where
  id : ℕ
  file_path : String
  meta : SongMeta
  last_modified : ℚ
  duration : Option ℕ
  features : Option Features
deriving DecidableEq

/-- The SQLite store: rows in insertion (= id) order plus the
auto-increment counter. -/
structure DB where
  rows : List Row
  nextId : ℕ
deriving DecidableEq

/-- `MusicDatabase.get_all_file_paths_with_mtime`, read as a lookup:
the stored mtime of a path, `none` when the path has no row. -/
def get_all_file_paths_with_mtime (db : DB) (p : String) : Option ℚ :=
  (db.rows.find? (fun r => r.file_path = p)).map (fun r => r.last_modified)

/-- `MusicDatabase.add_song` with `features=None`: update the existing row
with the given path in place (keeping its id and features), or insert a fresh
row with a new id and no features. -/
def DB.addSongMeta (db : DB) (p : String) (m : SongMeta) (mt : ℚ)
    (dur : Option ℕ) : DB :=
  if db.rows.any (fun r => r.file_path = p) then
    { db with rows := db.rows.map (fun r =>
        if r.file_path = p then
          { r with meta := m, last_modified := mt, duration := dur }
        else r) }
  else
    { rows := db.rows ++ [⟨db.nextId, p, m, mt, dur, none⟩],
      nextId := db.nextId + 1 }

/-- `MusicDatabase.add_song` as used by the feature phase: the song row was
just fetched by path, so only the features column changes. -/
def DB.setFeaturesByPath (db : DB) (p : String) (f : Features) : DB :=
  { db with rows := db.rows.map (fun r =>
      if r.file_path = p then { r with features := some f } else r) }

/-- `MusicDatabase.get_songs_without_features`. -/
def get_songs_without_features (db : DB) : List Row :=
  db.rows.filter (fun r => r.features.isNone)

/-- `MusicDatabase.get_all_songs_with_features` (rows are kept in id order). -/
def get_all_songs_with_features (db : DB) : List (Row × Features) :=
  db.rows.filterMap (fun r => r.features.map (fun f => (r, f)))

/-- `MusicDatabase.delete_song` by file path. -/
def DB.deleteSong (db : DB) (p : String) : DB :=
  { db with rows := db.rows.filter (fun r => r.file_path ≠ p) }

/-- The supported-extension allow-list of `LibraryIndexer`. -/
def SUPPORTED_EXTENSIONS : List String :=
  [".mp3", ".flac", ".wav", ".ogg"]

/-- The scan filter of `LibraryIndexer.scan_files`:
`f.lower().endswith(SUPPORTED_EXTENSIONS)`. -/
def isSupportedFile (f : String) : Bool :=
  SUPPORTED_EXTENSIONS.any (fun e => pyEndsWith (pyLower f) e)

/-- `LibraryIndexer.scan_files` over the output of `os.walk`
(a list of `(root, files-in-root)` groups). -/
def scan_files (walk : List (String × List String)) : List String :=
  walk.flatMap (fun e => (e.2.filter isSupportedFile).map (fun f => pathJoin e.1 f))

/-- `LibraryIndexer.get_files_to_process`: keep a file iff it is absent from
the store or its on-disk mtime is strictly greater than the stored one. -/
def get_files_to_process (db : DB) (files : List String)
    (mtime : String → ℚ) : List String :=
  files.filter (fun f =>
    match get_all_file_paths_with_mtime db f with
    | none => true
    | some t => mtime f > t)

/-- Raw tag data read by mutagen; `none` on a field means the tag is absent. -/
structure RawTags where
  title : Option String
  artist : Option String
  album : Option String
  genre : Option String
deriving DecidableEq

/-- The external environment of a pipeline run: the `os.walk` output, per-file
mtimes, mutagen tag data (`none` when `MutagenFile` raises), mutagen duration
info (`none` when it raises or reports nothing) and per-file librosa results
(`none` when `extract_features` fails and returns `None`). -/
structure Env where
  walk : List (String × List String)
  mtime : String → ℚ
  tagsOf : String → Option RawTags
  durationOf : String → Option ℕ
  featuresOf : String → Option Features

/-- `AudioAnalyzer.extract_metadata`: inside the `try`, the title falls back to
the basename when missing or empty and the other tags default to `"Unknown"`
when missing; when mutagen raises, the whole tuple falls back to
`(basename, "Unknown", "Unknown", "Unknown")`. -/
def extract_metadata (env : Env) (p : String) : SongMeta :=
  match env.tagsOf p with
  | none => ⟨basename p, "Unknown", "Unknown", "Unknown"⟩
  | some t =>
    { title := (truthy t.title).getD (basename p)
      artist := t.artist.getD "Unknown"
      album := t.album.getD "Unknown"
      genre := t.genre.getD "Unknown" }

/-- `LibraryIndexer.extract_metadata_phase`: for each selected file, extract
metadata and duration, read the on-disk mtime, and upsert the song row with no
features; returns the updated store and the processed count. -/
def extract_metadata_phase (env : Env) (db : DB) (files : List String) :
    DB × ℕ :=
  files.foldl (fun acc p =>
    (acc.1.addSongMeta p (extract_metadata env p) (env.mtime p)
      (env.durationOf p), acc.2 + 1)) (db, 0)

/-- One step of `LibraryIndexer.extract_features_phase` for the song row `t`:
when librosa succeeds on `t`'s file, the row with that path gains the computed
features, otherwise nothing changes. Applied to one row `r` of the store. -/
def featureStepRow (env : Env) (t : Row) (r : Row) : Row :=
  match env.featuresOf t.file_path with
  | some f => if r.file_path = t.file_path then { r with features := some f } else r
  | none => r

/-- `LibraryIndexer.extract_features_phase`: process every song currently
lacking features (one sequential linearization of the thread pool); a librosa
failure leaves the row untouched and is only logged. Returns the updated store
and the count of songs whose features were saved. -/
def extract_features_phase (env : Env) (db : DB) : DB × ℕ :=
  (get_songs_without_features db).foldl (fun acc t =>
    match env.featuresOf t.file_path with
    | some f => (acc.1.setFeaturesByPath t.file_path f, acc.2 + 1)
    | none => acc) (db, 0)

/-- `LibraryIndexer.clean_deleted_files`: drop every row whose path was not
scanned this run. -/
def clean_deleted_files (db : DB) (scanned : List String) : DB :=
  { db with rows := db.rows.filter (fun r => scanned.contains r.file_path) }

/-- A persisted FAISS index file: `none` when no file exists, otherwise the
stored (vector, song id) entries in insertion order. -/
abbrev IndexEntries := List (List ℚ × ℕ)

/-- The entry written for a (song, features) pair. -/
def toEntry (rf : Row × Features) : List ℚ × ℕ :=
  (rf.2.feature_vector, rf.1.id)

/-- The index contents produced by `LibraryIndexer.rebuild_similarity_index`
when at least one song has features: all songs with features, in id order. -/
def fullIndexEntries (db : DB) : IndexEntries :=
  (get_all_songs_with_features db).map toEntry

/-- The new-song selection of the incremental branch of
`LibraryIndexer.update_similarity_index_incremental`:
`song.id > current_index_size or song.id not in all_song_ids`, where
`all_song_ids` is the id set of the very list being filtered. -/
def selectNewSongs (swf : List (Row × Features)) (currentIndexSize : ℕ) :
    List (Row × Features) :=
  let allSongIds := swf.map (fun rf => rf.1.id)
  swf.filter (fun rf =>
    decide (rf.1.id > currentIndexSize) || !(allSongIds.contains rf.1.id))

/-- The rebuild decision of `update_similarity_index_incremental`:
`(new_song_count / max(current_index_size, 1)) * 100 > 10`, with the division
taken exactly over the rationals. -/
def changeRebuild (newSongCount currentSize : ℕ) : Bool :=
  decide (((newSongCount : ℚ) / ((max currentSize 1 : ℕ) : ℚ)) * 100 > 10)

/-- Fault flags for the fallible index steps: loading the persisted index,
`add_vectors` and saving on the incremental path, and the build/save of a
full rebuild (`faiss.write_index` can raise there too). -/
structure Faults where
  loadFails : Bool
  addFails : Bool
  saveFails : Bool
  rebuildFails : Bool
deriving DecidableEq

/-- The fault-free environment. -/
def noFaults : Faults := ⟨false, false, false, false⟩

/-- The state the maintenance step acts on: the store and the persisted
index file. -/
structure IdxState where
  db : DB
  indexFile : Option IndexEntries
deriving DecidableEq

/-- `LibraryIndexer.rebuild_similarity_index`: with no featured songs it logs
and returns without touching the index; otherwise it builds from all songs
with features and saves — and the build/save can raise, in which case the
persisted file is left as it was. -/
def rebuild_similarity_index (f : Faults) (db : DB)
    (idx : Option IndexEntries) : Except Unit (Option IndexEntries) :=
  if get_all_songs_with_features db = [] then .ok idx
  else if f.rebuildFails then .error ()
  else .ok (some (fullIndexEntries db))

/-- The body of the `try` block of `update_similarity_index_incremental`:
load the index, decide rebuild-vs-incremental on the change percentage, and on
the incremental branch add the selected songs and save; an `error` is a raised
exception (including one raised by the in-try rebuild). -/
def incrementalPath (f : Faults) (newSongCount : ℕ) (st : IdxState) :
    Except Unit IdxState :=
  if f.loadFails then .error () else
  let entries := st.indexFile.getD []
  let currentSize := entries.length
  if changeRebuild newSongCount currentSize then
    match rebuild_similarity_index f st.db st.indexFile with
    | .ok e => .ok { st with indexFile := e }
    | .error _ => .error ()
  else
    let newSongs := selectNewSongs (get_all_songs_with_features st.db) currentSize
    if newSongs.isEmpty then .ok st
    else if f.addFails then .error ()
    else if f.saveFails then .error ()
    else .ok { st with indexFile := some (entries ++ newSongs.map toEntry) }

/-- `LibraryIndexer.update_similarity_index_incremental`: skip when nothing
has features; build from scratch when no index file exists; otherwise run the
incremental path and fall back to a full rebuild when it raises. Neither the
cold-start rebuild nor the except-arm fallback rebuild sits in a `try`, so an
error raised there propagates to the caller. -/
def update_similarity_index_incremental (f : Faults) (newSongCount : ℕ)
    (st : IdxState) : Except Unit IdxState :=
  if (get_all_songs_with_features st.db).length = 0 then .ok st
  else if st.indexFile = none then
    match rebuild_similarity_index f st.db st.indexFile with
    | .ok e => .ok { st with indexFile := e }
    | .error _ => .error ()
  else
    match incrementalPath f newSongCount st with
    | .ok st' => .ok st'
    | .error _ =>
      match rebuild_similarity_index f st.db st.indexFile with
      | .ok e => .ok { st with indexFile := e }
      | .error _ => .error ()

/-- `LibraryIndexer.index_library`: scan, diff against stored mtimes, run the
metadata and feature phases, drop deleted files, and maintain the similarity
index when anything was processed; an error raised by the maintenance step
propagates (there is no surrounding `try`). -/
def index_library (env : Env) (f : Faults) (st : IdxState) :
    Except Unit IdxState :=
  let all_files := scan_files env.walk
  let files_to_process := get_files_to_process st.db all_files env.mtime
  let mdres := extract_metadata_phase env st.db files_to_process
  let ftres := extract_features_phase env mdres.1
  let db3 := clean_deleted_files ftres.1 all_files
  if ftres.2 > 0 ∨ mdres.2 > 0 then
    update_similarity_index_incremental f ftres.2 { db := db3, indexFile := st.indexFile }
  else
    .ok { db := db3, indexFile := st.indexFile }

/-- A numpy 2-D float array: its rows together with its column count
(`shape[1]`); a well-formed array has every row of length `ncols`. -/
structure NDArray2 where
  rows : List (List ℚ)
  ncols : ℕ
deriving DecidableEq

/-- The in-memory FAISS `IndexIDMap`: its dimension and the stored
(vector, id) pairs; FAISS ids are int64. -/
structure SimIndex where
  dimension : ℕ
  entries : List (List ℚ × ℤ)
deriving DecidableEq

/-- `SimilarityIndex.size`: `0` when no index object exists, else `ntotal`. -/
def SimIndex.sizeOf (o : Option SimIndex) : ℕ :=
  match o with
  | none => 0
  | some idx => idx.entries.length

/-- `SimilarityIndex.add_vectors`: raises when the index is uninitialized,
when the vector and id counts differ, or when the vector dimension does not
match the index dimension; otherwise appends the pairs. -/
def add_vectors (o : Option SimIndex) (vectors : NDArray2)
    (song_ids : List ℤ) : Except String (Option SimIndex) :=
  match o with
  | none => .error "Index not initialized"
  | some idx =>
    if vectors.rows.length ≠ song_ids.length then
      .error "Number of vectors must match number of song IDs"
    else if vectors.ncols ≠ idx.dimension then
      .error "Vector dimension does not match index dimension"
    else
      .ok (some { idx with entries := idx.entries ++ vectors.rows.zip song_ids })

/-- The in-memory index after an `add_vectors` call: Python mutates the object
only after all checks pass, so a raised call leaves the old state. -/
def add_vectorsState (o : Option SimIndex) (vectors : NDArray2)
    (song_ids : List ℤ) : Option SimIndex :=
  match add_vectors o vectors song_ids with
  | .ok o' => o'
  | .error _ => o

/-- A seed dictionary passed to the playlist generator; a field is `none`
when the key is missing. -/
structure Seed where
  title : Option String
  artist : Option String
  album : Option String
deriving DecidableEq

/-- The rows matching `MusicDatabase.find_song_exact`'s `WHERE` clause:
simultaneous equality on title, artist and album. -/
def exactMatches (rows : List Row) (t a al : String) : List Row :=
  rows.filter (fun r => r.meta.title = t ∧ r.meta.artist = a ∧ r.meta.album = al)

/-- `MusicDatabase.find_song_exact` via `scalar_one_or_none`: `none` on no
match, the row on a unique match, and a raised `MultipleResultsFound` on more
than one match. -/
def find_song_exact (rows : List Row) (t a al : String) :
    Except String (Option Row) :=
  match exactMatches rows t a al with
  | [] => .ok none
  | [s] => .ok (some s)
  | _ :: _ :: _ => .error "Multiple rows were found"

/-- `PlaylistGenerator.find_seed_songs`: skip a seed when a field is missing
or empty, append the unique exact match when one exists, skip with a warning
when there is none; a raised database error aborts the loop. -/
def find_seed_songs (rows : List Row) : List Seed → Except String (List Row)
  | [] => .ok []
  | s :: rest =>
    match truthy s.title, truthy s.artist, truthy s.album with
    | some t, some a, some al =>
      match find_song_exact rows t a al with
      | .error e => .error e
      | .ok none => find_seed_songs rows rest
      | .ok (some m) =>
        match find_seed_songs rows rest with
        | .error e => .error e
        | .ok l => .ok (m :: l)
    | _, _, _ => find_seed_songs rows rest

/-- `MusicDatabase.get_features` by song id. -/
def get_features (rows : List Row) (i : ℕ) : Option Features :=
  (rows.find? (fun r => r.id = i)).bind (fun r => r.features)

/-- `PlaylistGenerator.get_seed_vectors`: the feature vectors of the seed
songs, dropping seeds with no stored features. -/
def get_seed_vectors (rows : List Row) (seedSongs : List Row) : List (List ℚ) :=
  seedSongs.filterMap (fun s => (get_features rows s.id).map (fun f => f.feature_vector))

/-- `PlaylistGenerator.compute_average_vector` (`np.mean(vectors, axis=0)`),
on a nonempty list of equal-length vectors; the empty case raises upstream. -/
def compute_average_vector (vectors : List (List ℚ)) : List ℚ :=
  match vectors with
  | [] => []
  | v :: rest =>
    (rest.foldl (fun a b => a.zipWith (fun x y => x + y) b) v).map
      (fun x => x / (vectors.length : ℚ))

/-- `PlaylistGenerator.perturb_query_vector` with the drawn noise vector made
explicit: no perturbation when the noise scale is not positive. -/
def perturb_query_vector (noise : List ℚ) (scale : ℚ) (q : List ℚ) : List ℚ :=
  if scale ≤ 0 then q else q.zipWith (fun x y => x + y) noise

/-- `MusicDatabase.get_song_with_features` by a FAISS int64 id (`-1` pads a
short result and matches no row). -/
def get_song_with_features (rows : List Row) (i : ℤ) :
    Option (Row × Features) :=
  (rows.find? (fun r => (r.id : ℤ) = i)).bind
    (fun r => r.features.map (fun f => (r, f)))

/-- The candidate-collection loop of `PlaylistGenerator.find_similar_songs`:
walk the returned ids in order, skip excluded ids and ids that do not resolve
to a featured song, and break right after an append reaches
`candidate_count`. -/
def candidateLoop (rows : List Row) (exclude_ids : List ℤ)
    (candidate_count : ℕ) : List ℤ → List Row → List Row
  | [], acc => acc
  | i :: rest, acc =>
    if exclude_ids.contains i then
      candidateLoop rows exclude_ids candidate_count rest acc
    else
      match get_song_with_features rows i with
      | some sf =>
        if (acc ++ [sf.1]).length ≥ candidate_count then acc ++ [sf.1]
        else candidateLoop rows exclude_ids candidate_count rest (acc ++ [sf.1])
      | none => candidateLoop rows exclude_ids candidate_count rest acc

/-- `PlaylistGenerator.find_similar_songs`: search the index for an
oversampled candidate pool, collect usable candidates with `candidateLoop`,
and randomly sample `count` of them when more than `count` were collected;
`search` abstracts the FAISS query and `sample` the `random.sample` draw. -/
def find_similar_songs (search : List ℚ → ℕ → List ℤ)
    (sample : ℕ → ℕ → List ℕ) (rows : List Row) (q : List ℚ) (count : ℕ)
    (exclude_ids : List ℤ) (candidate_multiplier : ℕ) : List Row :=
  let extra_buffer := 50
  let candidate_count := count * candidate_multiplier
  let indices := search q (candidate_count + exclude_ids.length + extra_buffer)
  let candidate_songs := candidateLoop rows exclude_ids candidate_count indices []
  if candidate_songs.length ≤ count then candidate_songs
  else (sample candidate_songs.length count).filterMap
    (fun i => candidate_songs.get? i)

/-- `PlaylistGenerator.sort_by_bpm` with the per-position jitter draws made
explicit: pair each song having features with its jittered BPM and sort
stably by it. -/
def sort_by_bpm (rows : List Row) (jitter : ℕ → ℚ) (songs : List Row) :
    List Row :=
  let songs_with_bpm :=
    (songs.enum.filterMap (fun si =>
      (get_features rows si.2.id).map (fun f =>
        (si.2, f.bpm * (1 + jitter si.1)))))
  (songs_with_bpm.mergeSort (fun x y => x.2 ≤ y.2)).map (fun x => x.1)

/-- The failures `PlaylistGenerator.generate` can raise, named as in the
spec's error taxonomy; `dbError` wraps a raised database error. -/
inductive GenErr where
  | noSeedData
  | noSeedsFound
  | noFeaturesForSeeds
  | dbError (msg : String)
deriving DecidableEq

/-- A generated playlist: the ordered songs and the seed songs. -/
structure Playlist where
  songs : List Row
  seed_songs : List Row
deriving DecidableEq

/-- `PlaylistGenerator.generate`: resolve seeds, vectorize, average, perturb,
search, and sort; `ok none` is the normal empty result when no similar songs
are found. -/
def generate (rows : List Row) (search : List ℚ → ℕ → List ℤ)
    (sample : ℕ → ℕ → List ℕ) (jitter : ℕ → ℚ) (noise : List ℚ)
    (seed_data : List Seed) (length : ℕ) (noise_scale : ℚ)
    (candidate_multiplier : ℕ) : Except GenErr (Option Playlist) :=
  if seed_data.isEmpty then .error .noSeedData
  else
    match find_seed_songs rows seed_data with
    | .error e => .error (.dbError e)
    | .ok seed_songs =>
      if seed_songs.isEmpty then .error .noSeedsFound
      else
        let seed_vectors := get_seed_vectors rows seed_songs
        if seed_vectors.isEmpty then .error .noFeaturesForSeeds
        else
          let avg_vector := compute_average_vector seed_vectors
          let perturbed_vector := perturb_query_vector noise noise_scale avg_vector
          let exclude_ids := seed_songs.map (fun s => (s.id : ℤ))
          let similar_songs := find_similar_songs search sample rows
            perturbed_vector length exclude_ids candidate_multiplier
          if similar_songs.isEmpty then .ok none
          else .ok (some ⟨sort_by_bpm rows jitter similar_songs, seed_songs⟩)

/-- Per-seed resolution, used to state what `find_seed_songs` returns: the
unique exact match when all three fields are present (Python-truthy) and such
a match exists, `none` otherwise. -/
def resolveSeed (rows : List Row) (s : Seed) : Option Row :=
  match truthy s.title, truthy s.artist, truthy s.album with
  | some t, some a, some al => (exactMatches rows t a al).head?
  | _, _, _ => none

/-- The cumulative effect of the feature phase on a single row: every todo
item's step applied in order. Used to state the row-wise characterization of
`extract_features_phase`. -/
def ftApply (env : Env) (todo : List Row) (r : Row) : Row :=
  todo.foldl (fun r t => featureStepRow env t r) r

end VibeDJ

namespace VibeDJ

/-! Concrete fixtures for witnesses and counterexamples. -/

/-- Distinct scan filenames for the incremental-update scenario. -/
def c2name (i : ℕ) : String := String.mk (List.replicate i 's') ++ ".mp3"

/-- The library path of the `i`-th fixture file. -/
def c2path (i : ℕ) : String := pathJoin "m" (c2name i)

/-- The stored feature vector of the `i`-th fixture song. -/
def c2vec (i : ℕ) : List ℚ := [(i : ℚ)]

/-- Fixture row `i`: song id `i`; every song except song 1 already has
features. -/
def c2row (i : ℕ) : Row :=
  ⟨i, c2path i, ⟨"t", "a", "al", "g"⟩, 1, none,
    if i = 1 then none else some ⟨c2vec i, 120⟩⟩

/-- Fixture store: songs 1..11, with song 1 still lacking features. -/
def c2db : DB := ⟨(List.range 11).map (fun j => c2row (j + 1)), 12⟩

/-- Fixture persisted index: ten entries, for songs 2..11. -/
def c2entries : IndexEntries := (List.range 10).map (fun j => (c2vec (j + 2), j + 2))

/-- Fixture environment: the eleven files on disk, mtimes unchanged, and
librosa succeeding on every file. -/
def c2env : Env :=
  { walk := [("m", (List.range 11).map (fun j => c2name (j + 1)))]
    mtime := fun _ => 1
    tagsOf := fun _ => none
    durationOf := fun _ => none
    featuresOf := fun _ => some ⟨[0], 100⟩ }

/-- Fixture maintenance state: the store plus the persisted ten-entry index. -/
def c2st : IdxState := ⟨c2db, some c2entries⟩

/-- Environment for the metadata-failure scenario: one file whose mutagen
read raises, with on-disk mtime 5. -/
def c6env : Env :=
  { walk := [("m", ["x.mp3"])]
    mtime := fun _ => 5
    tagsOf := fun _ => none
    durationOf := fun _ => none
    featuresOf := fun _ => none }

/-- Environment for the persistently-failing-analysis scenario: one file that
scans and has metadata but on which librosa always fails. -/
def c5env : Env :=
  { walk := [("r", ["a.mp3"])]
    mtime := fun _ => 1
    tagsOf := fun _ => some ⟨some "T", some "A", some "L", some "G"⟩
    durationOf := fun _ => some 100
    featuresOf := fun _ => none }

/-- A one-featured-song store used by several witnesses. -/
def w1db : DB := ⟨[⟨1, "r/a.mp3", ⟨"T", "A", "L", "G"⟩, 1, some 100, some ⟨[1], 100⟩⟩], 2⟩

/-- Environment matching `w1db` with librosa succeeding. -/
def w1env : Env :=
  { walk := [("r", ["a.mp3"])]
    mtime := fun _ => 1
    tagsOf := fun _ => some ⟨some "T", some "A", some "L", some "G"⟩
    durationOf := fun _ => some 100
    featuresOf := fun _ => some ⟨[1], 100⟩ }

/-- Maintenance state over `w1db` with a one-entry persisted index. -/
def w1st : IdxState := ⟨w1db, some [([1], 1)]⟩

/-- Maintenance state whose persisted index is stale relative to the store:
the file holds an entry for id 9 while the only featured song has id 1. -/
def c3st : IdxState := ⟨w1db, some [([9], 9)]⟩

/-- The store after the `c2env` run: song 1 has gained its computed features
and every other row is unchanged. -/
def c2dbAfter : DB :=
  ⟨(List.range 11).map (fun j =>
    if j = 0 then ⟨1, c2path 1, ⟨"t", "a", "al", "g"⟩, 1, none, some ⟨[0], 100⟩⟩
    else c2row (j + 1)), 12⟩

/-- The state after the first `c5env` run: the file's metadata row is stored
but feature extraction failed, so the track still lacks features and no index
file was written. -/
def c5st1 : IdxState :=
  ⟨⟨[⟨0, "r/a.mp3", ⟨"T", "A", "L", "G"⟩, 1, some 100, none⟩], 1⟩, none⟩

attribute [local semireducible] Rat.mul Rat.inv Rat.add Rat.sub

/-! Lemmas about the store operations. -/

theorem find?_path_map (rows : List Row) (g : Row → Row)
    (hg : ∀ r, (g r).file_path = r.file_path) (p : String) :
    (rows.map g).find? (fun r => r.file_path = p)
      = (rows.find? (fun r => r.file_path = p)).map g := by
  rw [List.find?_map]
  have hpred : ((fun r => decide (r.file_path = p)) ∘ g)
      = (fun r : Row => decide (r.file_path = p)) := by
    funext r
    simp [Function.comp, hg r]
  rw [hpred]

theorem lookup_addSongMeta_self (db : DB) (p : String) (m : SongMeta) (t : ℚ)
    (d : Option ℕ) :
    get_all_file_paths_with_mtime (db.addSongMeta p m t d) p = some t := by
  unfold DB.addSongMeta get_all_file_paths_with_mtime
  by_cases h : (db.rows.any (fun r => r.file_path = p)) = true
  · rw [if_pos h]
    rw [find?_path_map]
    · have hs : (db.rows.find? (fun r => r.file_path = p)).isSome := by
        rw [List.find?_isSome]
        simpa using h
      obtain ⟨r, hr⟩ := Option.isSome_iff_exists.mp hs
      have hpr : r.file_path = p := by simpa using List.find?_some hr
      simp [hr, hpr]
    · intro r
      by_cases hr : r.file_path = p <;> simp [hr]
  · rw [if_neg h]
    have hnone : db.rows.find? (fun r => r.file_path = p) = none := by
      rw [List.find?_eq_none]
      intro x hx hpx
      exact h (List.any_eq_true.mpr ⟨x, hx, hpx⟩)
    simp [List.find?_append, hnone]

theorem lookup_addSongMeta_other (db : DB) (p q : String) (m : SongMeta)
    (t : ℚ) (d : Option ℕ) (hne : q ≠ p) :
    get_all_file_paths_with_mtime (db.addSongMeta p m t d) q
      = get_all_file_paths_with_mtime db q := by
  unfold DB.addSongMeta get_all_file_paths_with_mtime
  by_cases h : (db.rows.any (fun r => r.file_path = p)) = true
  · rw [if_pos h]
    rw [find?_path_map]
    · cases hf : db.rows.find? (fun r => r.file_path = q) with
      | none => simp [hf]
      | some r =>
        have hqr : r.file_path = q := by simpa using List.find?_some hf
        have : ¬ r.file_path = p := by
          rw [hqr]
          exact hne
        simp [hf, this]
    · intro r
      by_cases hr : r.file_path = p <;> simp [hr]
  · rw [if_neg h]
    rw [List.find?_append]
    cases hf : db.rows.find? (fun r => r.file_path = q) with
    | none => simp [hf, Ne.symm hne]
    | some r => simp [hf]

theorem mdfold_fst (env : Env) (files : List String) (db : DB) (n : ℕ) :
    (files.foldl (fun acc p =>
        (acc.1.addSongMeta p (extract_metadata env p) (env.mtime p)
          (env.durationOf p), acc.2 + 1)) (db, n)).1
      = files.foldl (fun d p =>
          d.addSongMeta p (extract_metadata env p) (env.mtime p)
            (env.durationOf p)) db := by
  induction files generalizing db n with
  | nil => rfl
  | cons f fs ih => exact ih _ _

theorem mdfold_snd (env : Env) (files : List String) (db : DB) (n : ℕ) :
    (files.foldl (fun acc p =>
        (acc.1.addSongMeta p (extract_metadata env p) (env.mtime p)
          (env.durationOf p), acc.2 + 1)) (db, n)).2 = n + files.length := by
  induction files generalizing db n with
  | nil => rfl
  | cons f fs ih =>
    rw [List.foldl_cons, ih _ _, List.length_cons]
    omega

theorem lookup_mdfoldDB (env : Env) (files : List String) (db : DB)
    (p : String) :
    get_all_file_paths_with_mtime
        (files.foldl (fun d q =>
          d.addSongMeta q (extract_metadata env q) (env.mtime q)
            (env.durationOf q)) db) p
      = if p ∈ files then some (env.mtime p)
        else get_all_file_paths_with_mtime db p := by
  induction files generalizing db with
  | nil => simp
  | cons f fs ih =>
    rw [List.foldl_cons, ih]
    by_cases hfs : p ∈ fs
    · simp [hfs]
    · by_cases hf : p = f
      · subst hf
        simp [hfs, lookup_addSongMeta_self]
      · simp [hfs, hf, lookup_addSongMeta_other _ _ _ _ _ _ hf]

theorem lookup_extract_metadata_phase (env : Env) (db : DB)
    (files : List String) (p : String) :
    get_all_file_paths_with_mtime (extract_metadata_phase env db files).1 p
      = if p ∈ files then some (env.mtime p)
        else get_all_file_paths_with_mtime db p := by
  unfold extract_metadata_phase
  rw [mdfold_fst, lookup_mdfoldDB]

theorem extract_metadata_phase_count (env : Env) (db : DB)
    (files : List String) :
    (extract_metadata_phase env db files).2 = files.length := by
  unfold extract_metadata_phase
  rw [mdfold_snd]
  omega

theorem featureStepRow_file_path (env : Env) (t r : Row) :
    (featureStepRow env t r).file_path = r.file_path
      ∧ (featureStepRow env t r).last_modified = r.last_modified := by
  unfold featureStepRow
  cases env.featuresOf t.file_path with
  | none => exact ⟨rfl, rfl⟩
  | some f =>
    by_cases h : r.file_path = t.file_path <;> simp [h]

theorem ftApply_file_path (env : Env) (todo : List Row) (r : Row) :
    (ftApply env todo r).file_path = r.file_path
      ∧ (ftApply env todo r).last_modified = r.last_modified := by
  induction todo generalizing r with
  | nil => exact ⟨rfl, rfl⟩
  | cons t ts ih =>
    have hstep := featureStepRow_file_path env t r
    have hrest := ih (featureStepRow env t r)
    exact ⟨hrest.1.trans hstep.1, hrest.2.trans hstep.2⟩

theorem ftApply_mono (env : Env) (todo : List Row) (r : Row)
    (h : r.features.isSome) : (ftApply env todo r).features.isSome := by
  induction todo generalizing r with
  | nil => exact h
  | cons t ts ih =>
    apply ih
    cases he : env.featuresOf t.file_path with
    | none => simpa [featureStepRow, he] using h
    | some f =>
      by_cases hp : r.file_path = t.file_path <;>
        simp [featureStepRow, he, hp, h]

theorem ftApply_hit (env : Env) (todo : List Row) (r : Row)
    (h : ∃ t ∈ todo, t.file_path = r.file_path
      ∧ (env.featuresOf t.file_path).isSome) :
    (ftApply env todo r).features.isSome := by
  induction todo generalizing r with
  | nil => simp at h
  | cons t ts ih =>
    obtain ⟨u, hu, hupath, husome⟩ := h
    rcases List.mem_cons.mp hu with rfl | hu'
    · have : (ftApply env (u :: ts) r)
          = ftApply env ts (featureStepRow env u r) := rfl
      rw [this]
      apply ftApply_mono
      obtain ⟨f, hf⟩ := Option.isSome_iff_exists.mp husome
      simp [featureStepRow, hf, hupath.symm]
    · have : (ftApply env (t :: ts) r)
          = ftApply env ts (featureStepRow env t r) := rfl
      rw [this]
      apply ih
      refine ⟨u, hu', ?_, husome⟩
      rw [hupath, (featureStepRow_file_path env t r).1]

theorem ftfold_rows (env : Env) (todo : List Row) (db : DB) (n : ℕ) :
    ((todo.foldl (fun acc t =>
        match env.featuresOf t.file_path with
        | some f => (acc.1.setFeaturesByPath t.file_path f, acc.2 + 1)
        | none => acc) (db, n)).1).rows
      = db.rows.map (ftApply env todo) := by
  induction todo generalizing db n with
  | nil =>
    simp only [List.foldl_nil, show (ftApply env []) = id from rfl, List.map_id]
  | cons t ts ih =>
    rw [List.foldl_cons]
    have happ : ∀ r, ftApply env (t :: ts) r
        = ftApply env ts (featureStepRow env t r) := fun r => rfl
    cases he : env.featuresOf t.file_path with
    | some f =>
      simp only [he]
      rw [ih]
      unfold DB.setFeaturesByPath
      rw [List.map_map]
      apply List.map_congr_left
      intro r _
      rw [happ r]
      unfold featureStepRow
      rw [he]
      rfl
    | none =>
      simp only [he]
      rw [ih]
      apply List.map_congr_left
      intro r _
      rw [happ r]
      unfold featureStepRow
      rw [he]

theorem extract_features_phase_rows (env : Env) (db : DB) :
    ((extract_features_phase env db).1).rows
      = db.rows.map (ftApply env (get_songs_without_features db)) := by
  unfold extract_features_phase
  rw [ftfold_rows]

theorem lookup_extract_features_phase (env : Env) (db : DB) (p : String) :
    get_all_file_paths_with_mtime (extract_features_phase env db).1 p
      = get_all_file_paths_with_mtime db p := by
  unfold get_all_file_paths_with_mtime
  rw [extract_features_phase_rows, find?_path_map]
  · cases hf : db.rows.find? (fun r => r.file_path = p) with
    | none => simp [hf]
    | some r =>
      simp [hf, (ftApply_file_path env (get_songs_without_features db) r).2]
  · intro r
    exact (ftApply_file_path env (get_songs_without_features db) r).1

theorem ftfold_nochange (env : Env) (todo : List Row) (db : DB) (n : ℕ)
    (h : ∀ t ∈ todo, env.featuresOf t.file_path = none) :
    (todo.foldl (fun acc t =>
        match env.featuresOf t.file_path with
        | some f => (acc.1.setFeaturesByPath t.file_path f, acc.2 + 1)
        | none => acc) (db, n)) = (db, n) := by
  induction todo with
  | nil => rfl
  | cons t ts ih =>
    rw [List.foldl_cons]
    have he := h t (List.mem_cons_self t ts)
    simp only [he]
    exact ih (fun u hu => h u (List.mem_cons_of_mem t hu))

theorem find?_filter_of_pred (l : List Row) (pred q : Row → Bool)
    (h : ∀ x, pred x = true → q x = true) :
    (l.filter q).find? pred = l.find? pred := by
  induction l with
  | nil => rfl
  | cons x t ih =>
    by_cases hp : pred x = true
    · rw [List.filter_cons, if_pos (h x hp)]
      rw [List.find?_cons_of_pos _ hp, List.find?_cons_of_pos _ hp]
    · by_cases hq : q x = true
      · rw [List.filter_cons, if_pos hq]
        rw [List.find?_cons_of_neg _ hp, List.find?_cons_of_neg _ hp]
        exact ih
      · rw [List.filter_cons, if_neg hq, List.find?_cons_of_neg _ hp]
        exact ih

theorem lookup_clean (db : DB) (scanned : List String) (p : String)
    (h : p ∈ scanned) :
    get_all_file_paths_with_mtime (clean_deleted_files db scanned) p
      = get_all_file_paths_with_mtime db p := by
  unfold clean_deleted_files get_all_file_paths_with_mtime
  rw [find?_filter_of_pred]
  intro x hx
  have hxp : x.file_path = p := by simpa using hx
  rw [hxp]
  exact List.elem_iff.mpr h

theorem clean_idem (db : DB) (scanned : List String) :
    clean_deleted_files (clean_deleted_files db scanned) scanned
      = clean_deleted_files db scanned := by
  unfold clean_deleted_files
  simp [List.filter_filter]

theorem rebuild_of_nonempty (f : Faults) (db : DB) (idx : Option IndexEntries)
    (hne : get_all_songs_with_features db ≠ [])
    (hreb : f.rebuildFails = false) :
    rebuild_similarity_index f db idx
      = Except.ok (some (fullIndexEntries db)) := by
  unfold rebuild_similarity_index
  rw [if_neg hne, if_neg (by rw [hreb]; exact Bool.false_ne_true)]

theorem incrementalPath_ok_db (f : Faults) (k : ℕ) (st st' : IdxState)
    (h : incrementalPath f k st = .ok st') : st'.db = st.db := by
  unfold incrementalPath at h
  by_cases h1 : f.loadFails = true
  · rw [if_pos h1] at h
    cases h
  · rw [if_neg h1] at h
    simp only at h
    by_cases h2 : changeRebuild k (st.indexFile.getD []).length = true
    · rw [if_pos h2] at h
      cases hr : rebuild_similarity_index f st.db st.indexFile with
      | ok e =>
        rw [hr] at h
        cases h
        rfl
      | error u =>
        rw [hr] at h
        cases h
    · rw [if_neg h2] at h
      by_cases h3 : (selectNewSongs (get_all_songs_with_features st.db)
          (st.indexFile.getD []).length).isEmpty = true
      · rw [if_pos h3] at h
        cases h
        rfl
      · rw [if_neg h3] at h
        by_cases h4 : f.addFails = true
        · rw [if_pos h4] at h
          cases h
        · rw [if_neg h4] at h
          by_cases h5 : f.saveFails = true
          · rw [if_pos h5] at h
            cases h
          · rw [if_neg h5] at h
            cases h
            rfl

theorem update_ok_db (f : Faults) (k : ℕ) (st st' : IdxState)
    (h : update_similarity_index_incremental f k st = .ok st') :
    st'.db = st.db := by
  unfold update_similarity_index_incremental at h
  by_cases h1 : (get_all_songs_with_features st.db).length = 0
  · rw [if_pos h1] at h
    cases h
    rfl
  · rw [if_neg h1] at h
    by_cases h2 : st.indexFile = none
    · rw [if_pos h2] at h
      cases hr : rebuild_similarity_index f st.db st.indexFile with
      | ok e =>
        rw [hr] at h
        cases h
        rfl
      | error u =>
        rw [hr] at h
        cases h
    · rw [if_neg h2] at h
      cases hp : incrementalPath f k st with
      | ok s =>
        rw [hp] at h
        cases h
        exact incrementalPath_ok_db f k st _ hp
      | error u =>
        rw [hp] at h
        cases hr : rebuild_similarity_index f st.db st.indexFile with
        | ok e =>
          rw [hr] at h
          cases h
          rfl
        | error u2 =>
          rw [hr] at h
          cases h

theorem selectNewSongs_eq_filter (swf : List (Row × Features)) (n : ℕ) :
    selectNewSongs swf n = swf.filter (fun rf => decide (rf.1.id > n)) := by
  unfold selectNewSongs
  apply List.filter_congr
  intro x hx
  have hmem : x.1.id ∈ swf.map (fun rf => rf.1.id) :=
    List.mem_map.mpr ⟨x, hx, rfl⟩
  have hcon : (swf.map (fun rf => rf.1.id)).contains x.1.id = true :=
    List.elem_iff.mpr hmem
  rw [hcon]
  simp

theorem changeRebuild_iff (k n : ℕ) :
    changeRebuild k n = true
      ↔ ((k : ℚ) / ((max n 1 : ℕ) : ℚ) > 1 / 10) := by
  unfold changeRebuild
  rw [decide_eq_true_eq]
  constructor <;> intro h <;> linarith

theorem mem_get_files_to_process (db : DB) (files : List String)
    (mtime : String → ℚ) (f : String) :
    f ∈ get_files_to_process db files mtime ↔
      f ∈ files ∧ (get_all_file_paths_with_mtime db f = none ∨
        ∃ t, get_all_file_paths_with_mtime db f = some t ∧ mtime f > t) := by
  unfold get_files_to_process
  rw [List.mem_filter]
  cases hl : get_all_file_paths_with_mtime db f with
  | none => simp [hl]
  | some t => simp [hl]

theorem incrementalPath_noFaults (k : ℕ) (st : IdxState)
    (entries : IndexEntries) (hsome : st.indexFile = some entries)
    (hne : get_all_songs_with_features st.db ≠ []) :
    incrementalPath noFaults k st =
      (if changeRebuild k entries.length then
        Except.ok { st with indexFile := some (fullIndexEntries st.db) }
      else
        (let newSongs := selectNewSongs (get_all_songs_with_features st.db) entries.length
         if newSongs.isEmpty then Except.ok st
         else Except.ok { st with indexFile := some (entries ++ newSongs.map toEntry) })) := by
  unfold incrementalPath
  rw [if_neg (by decide : ¬ (noFaults.loadFails = true))]
  rw [hsome]
  simp only [Option.getD_some]
  by_cases hcr : changeRebuild k entries.length = true
  · rw [if_pos hcr, if_pos hcr, rebuild_of_nonempty noFaults _ _ hne rfl]
  · rw [if_neg hcr, if_neg hcr]
    by_cases hni : (selectNewSongs (get_all_songs_with_features st.db)
        entries.length).isEmpty = true
    · simp only [hni, if_true]
    · simp only [hni, if_false]
      rw [if_neg (by decide : ¬ (noFaults.addFails = true))]
      rw [if_neg (by decide : ¬ (noFaults.saveFails = true))]

theorem update_noFaults_none (k : ℕ) (st : IdxState)
    (hfeat : 0 < (get_all_songs_with_features st.db).length)
    (hnone : st.indexFile = none) :
    update_similarity_index_incremental noFaults k st
      = Except.ok { st with indexFile := some (fullIndexEntries st.db) } := by
  have hne : get_all_songs_with_features st.db ≠ [] := by
    intro h0
    rw [h0] at hfeat
    simp at hfeat
  have hlen : ¬ (get_all_songs_with_features st.db).length = 0 := by
    omega
  unfold update_similarity_index_incremental
  rw [if_neg hlen, if_pos hnone, rebuild_of_nonempty noFaults _ _ hne rfl]

theorem update_noFaults_some (k : ℕ) (st : IdxState) (entries : IndexEntries)
    (hfeat : 0 < (get_all_songs_with_features st.db).length)
    (hsome : st.indexFile = some entries) :
    update_similarity_index_incremental noFaults k st
      = Except.ok (if changeRebuild k entries.length then
          { st with indexFile := some (fullIndexEntries st.db) }
        else
          (let newSongs := selectNewSongs (get_all_songs_with_features st.db)
            entries.length
           if newSongs.isEmpty then st
           else { st with indexFile := some (entries ++ newSongs.map toEntry) })) := by
  have hne : get_all_songs_with_features st.db ≠ [] := by
    intro h0
    rw [h0] at hfeat
    simp at hfeat
  have hlen : ¬ (get_all_songs_with_features st.db).length = 0 := by
    omega
  unfold update_similarity_index_incremental
  rw [if_neg hlen, if_neg (by rw [hsome]; intro hc; cases hc)]
  rw [incrementalPath_noFaults k st entries hsome hne]
  by_cases hcr : changeRebuild k entries.length = true
  · rw [if_pos hcr, if_pos hcr]
  · rw [if_neg hcr, if_neg hcr]
    by_cases hni : (selectNewSongs (get_all_songs_with_features st.db)
        entries.length).isEmpty = true
    · simp [hni]
    · simp [hni]

theorem update_noFaults_ok (k : ℕ) (st : IdxState) :
    ∃ st', update_similarity_index_incremental noFaults k st
      = Except.ok st' := by
  by_cases h1 : (get_all_songs_with_features st.db).length = 0
  · refine ⟨st, ?_⟩
    unfold update_similarity_index_incremental
    rw [if_pos h1]
  · have hfeat : 0 < (get_all_songs_with_features st.db).length :=
      Nat.pos_of_ne_zero h1
    cases hopt : st.indexFile with
    | none => exact ⟨_, update_noFaults_none k st hfeat hopt⟩
    | some entries => exact ⟨_, update_noFaults_some k st entries hfeat hopt⟩

/-! The claims. -/

/-- C4: change detection selects a file iff it is absent from the stored
path-to-mtime map or its on-disk mtime is strictly greater than the stored
one; in particular a file whose stored mtime equals its on-disk mtime is
never selected, and a file whose on-disk mtime increased is always
selected. -/
theorem change_detection_spec (db : DB) (files : List String)
    (mtime : String → ℚ) (f : String) :
    (f ∈ get_files_to_process db files mtime ↔
      f ∈ files ∧ (get_all_file_paths_with_mtime db f = none ∨
        ∃ t, get_all_file_paths_with_mtime db f = some t ∧ mtime f > t)) ∧
    (∀ t, f ∈ files → get_all_file_paths_with_mtime db f = some t →
      mtime f = t → f ∉ get_files_to_process db files mtime) ∧
    (∀ t, f ∈ files → get_all_file_paths_with_mtime db f = some t →
      mtime f > t → f ∈ get_files_to_process db files mtime) := by
  have hmem := mem_get_files_to_process db files mtime f
  refine ⟨hmem, ?_, ?_⟩
  · intro t hf hl heq hin
    rcases (hmem.mp hin).2 with hnone | ⟨t', hl', hgt⟩
    · rw [hl] at hnone
      cases hnone
    · rw [hl] at hl'
      cases hl'
      rw [heq] at hgt
      exact lt_irrefl t hgt
  · intro t hf hl hgt
    exact hmem.mpr ⟨hf, Or.inr ⟨t, hl, hgt⟩⟩

/-- Witness for C4: with a stored mtime equal to the on-disk mtime the file
is not selected; an unknown file is selected. -/
theorem change_detection_spec_witness :
    "r/a.mp3" ∉ get_files_to_process w1db ["r/a.mp3"] (fun _ => 1) ∧
    "b" ∈ get_files_to_process w1db ["b"] (fun _ => 1) := by
  constructor
  · exact (change_detection_spec w1db ["r/a.mp3"] (fun _ => 1) "r/a.mp3").2.1 1
      (by decide) (by decide) (by decide)
  · exact (change_detection_spec w1db ["b"] (fun _ => 1) "b").1.mpr
      ⟨by decide, Or.inl (by decide)⟩

/-- C10: the scan matches the supported-extension allow-list
case-insensitively: a file is contributed to the scan result iff its name,
lowercased, ends with `.mp3`, `.flac`, `.wav` or `.ogg`; in particular
`SONG.MP3` is included. -/
theorem scan_extension_allowlist (walk : List (String × List String))
    (p : String) :
    (p ∈ scan_files walk ↔
      ∃ e ∈ walk, ∃ f ∈ e.2, isSupportedFile f = true ∧ p = pathJoin e.1 f) ∧
    (∀ f : String, isSupportedFile f = true ↔
      (pyEndsWith (pyLower f) ".mp3" = true
        ∨ pyEndsWith (pyLower f) ".flac" = true
        ∨ pyEndsWith (pyLower f) ".wav" = true
        ∨ pyEndsWith (pyLower f) ".ogg" = true)) ∧
    isSupportedFile "SONG.MP3" = true
      ∧ isSupportedFile "song.mp3.txt" = false := by
  refine ⟨?_, ?_, by decide, by decide⟩
  · unfold scan_files
    simp only [List.mem_flatMap, List.mem_map, List.mem_filter]
    constructor
    · rintro ⟨e, he, f, ⟨hf, hs⟩, hp⟩
      exact ⟨e, he, f, hf, hs, hp.symm⟩
    · rintro ⟨e, he, f, hf, hs, hp⟩
      exact ⟨e, he, f, ⟨hf, hs⟩, hp.symm⟩
  · intro f
    unfold isSupportedFile SUPPORTED_EXTENSIONS
    simp [List.any_eq_true]

/-- C8: `add_vectors` on an initialized index with a vector dimension
different from the index dimension always fails and leaves the index size
unchanged. -/
theorem add_vectors_dimension_mismatch (idx : SimIndex) (vectors : NDArray2)
    (song_ids : List ℤ) (h : vectors.ncols ≠ idx.dimension) :
    (∃ e, add_vectors (some idx) vectors song_ids = Except.error e) ∧
    SimIndex.sizeOf (add_vectorsState (some idx) vectors song_ids)
      = SimIndex.sizeOf (some idx) := by
  have herr : ∃ e, add_vectors (some idx) vectors song_ids
      = Except.error e := by
    unfold add_vectors
    dsimp only
    by_cases hl : vectors.rows.length ≠ song_ids.length
    · exact ⟨_, by rw [if_pos hl]⟩
    · exact ⟨_, by rw [if_neg hl, if_pos h]⟩
  obtain ⟨e, he⟩ := herr
  refine ⟨⟨e, he⟩, ?_⟩
  unfold add_vectorsState
  rw [he]

/-- Witness for C8: adding a 2-dimensional vector to a 3-dimensional index
fails and the size stays 0. -/
theorem add_vectors_dimension_mismatch_witness :
    (∃ e, add_vectors (some ⟨3, []⟩) ⟨[[1, 2]], 2⟩ [5] = Except.error e) ∧
    SimIndex.sizeOf (add_vectorsState (some ⟨3, []⟩) ⟨[[1, 2]], 2⟩ [5])
      = SimIndex.sizeOf (some ⟨3, []⟩) :=
  add_vectors_dimension_mismatch ⟨3, []⟩ ⟨[[1, 2]], 2⟩ [5] (by decide)

/-- C1: when at least one track has features the fault-free maintenance step
rebuilds wholesale from all tracks with features when no persisted index
exists; otherwise the rebuild path is taken iff
`changed / max(current, 1) > 0.10` (the exact rational reading of the
float comparison `(changed / max(current, 1)) * 100 > 10`) and the
incremental add path is taken otherwise; in particular `current=100,
changed=5` takes the incremental path and `current=100, changed=20` the
rebuild path. -/
theorem maintenance_policy_spec (k : ℕ) (st : IdxState)
    (hfeat : 0 < (get_all_songs_with_features st.db).length) :
    (st.indexFile = none →
      update_similarity_index_incremental noFaults k st
        = Except.ok { st with indexFile := some (fullIndexEntries st.db) }) ∧
    (∀ entries, st.indexFile = some entries →
      ((changeRebuild k entries.length = true)
          ↔ ((k : ℚ) / ((max entries.length 1 : ℕ) : ℚ) > 1 / 10)) ∧
      update_similarity_index_incremental noFaults k st
        = Except.ok (if changeRebuild k entries.length then
            { st with indexFile := some (fullIndexEntries st.db) }
          else
            (let newSongs := selectNewSongs (get_all_songs_with_features st.db)
              entries.length
             if newSongs.isEmpty then st
             else { st with indexFile := some (entries ++ newSongs.map toEntry) }))) ∧
    (changeRebuild 5 100 = false ∧ changeRebuild 20 100 = true) := by
  refine ⟨fun hnone => update_noFaults_none k st hfeat hnone,
    fun entries hsome => ⟨changeRebuild_iff k entries.length,
      update_noFaults_some k st entries hfeat hsome⟩,
    by decide, by decide⟩

/-- Witness for C1: on a one-featured-song store with no persisted index, the
maintenance step builds the full index. -/
theorem maintenance_policy_spec_witness :
    update_similarity_index_incremental noFaults 1 ⟨w1db, none⟩
      = Except.ok { db := w1db, indexFile := some (fullIndexEntries w1db) } :=
  (maintenance_policy_spec 1 ⟨w1db, none⟩ (by decide)).1 rfl

/-- C2 (amended): on the incremental path the set of (vector, id) pairs
passed to `add_vectors` is exactly the tracks with features whose id is
strictly greater than the loaded index's size — not the tracks that gained
features this run; the `or song.id not in all_song_ids` disjunct of the
source is vacuous because `all_song_ids` is built from the list being
filtered. -/
theorem incremental_add_selection (k : ℕ) (st : IdxState)
    (entries : IndexEntries) (hsome : st.indexFile = some entries)
    (hfeat : 0 < (get_all_songs_with_features st.db).length)
    (hsmall : changeRebuild k entries.length = false) :
    selectNewSongs (get_all_songs_with_features st.db) entries.length
      = (get_all_songs_with_features st.db).filter
          (fun rf => decide (rf.1.id > entries.length)) ∧
    update_similarity_index_incremental noFaults k st
      = Except.ok (let sel := (get_all_songs_with_features st.db).filter
                      (fun rf => decide (rf.1.id > entries.length));
                   if sel.isEmpty then st
                   else { st with
                     indexFile := some (entries ++ sel.map toEntry) }) := by
  have hfil := selectNewSongs_eq_filter (get_all_songs_with_features st.db)
    entries.length
  refine ⟨hfil, ?_⟩
  have hupd := update_noFaults_some k st entries hfeat hsome
  rw [hupd, if_neg (by rw [hsmall]; intro hc; cases hc)]
  simp only [hfil]

/-- Witness for C2's amended statement: with one featured song of id 1 and a
loaded index of size 1, no song has id above the size, so nothing is added
and the state is unchanged. -/
theorem incremental_add_selection_witness :
    selectNewSongs (get_all_songs_with_features w1st.db)
        ([([1], 1)] : IndexEntries).length
      = (get_all_songs_with_features w1st.db).filter
          (fun rf => decide (rf.1.id > ([([1], 1)] : IndexEntries).length)) ∧
    update_similarity_index_incremental noFaults 0 w1st
      = Except.ok (let sel := (get_all_songs_with_features w1st.db).filter
                      (fun rf => decide
                        (rf.1.id > ([([1], 1)] : IndexEntries).length));
                   if sel.isEmpty then w1st
                   else { w1st with
                     indexFile := some (([([1], 1)] : IndexEntries)
                       ++ sel.map toEntry) }) :=
  incremental_add_selection 0 w1st [([1], 1)] rfl (by decide) (by decide)

/-- Counterexample for C2 as stated: eleven featured tracks with ids 1..11, a
loaded index of size 10 holding ids 2..11, and exactly track 1 gaining
features this run; the run takes the incremental path but passes the pair of
track 11 — already present in the index — to `add_vectors`, and never adds
track 1. -/
theorem incremental_add_selection_counterexample :
    get_songs_without_features c2db = [c2row 1] ∧
    (extract_features_phase c2env c2db).2 = 1 ∧
    get_songs_without_features c2dbAfter = [] ∧
    index_library c2env noFaults c2st
      = Except.ok ⟨c2dbAfter, some (c2entries ++ [(c2vec 11, 11)])⟩ ∧
    (c2vec 11, 11) ∈ c2entries ∧
    (c2entries ++ [(c2vec 11, 11)]).all (fun pr => pr.2 ≠ 1) = true := by
  refine ⟨by decide, by decide, by decide, by decide, by decide, by decide⟩

/-- C3 (amended): whenever a step of the incremental maintenance path raises,
the maintenance step falls back to a full rebuild from all tracks with
features; provided that fallback rebuild's own build/save does not raise, no
error propagates to the caller and the persisted index ends holding exactly
the full entries. (When the fallback rebuild itself raises, the error does
propagate — see the counterexample.) -/
theorem incremental_failure_fallback (f : Faults) (k : ℕ) (st : IdxState)
    (hfeat : 0 < (get_all_songs_with_features st.db).length)
    (hidx : st.indexFile ≠ none)
    (herr : ∃ e, incrementalPath f k st = Except.error e)
    (hreb : f.rebuildFails = false) :
    update_similarity_index_incremental f k st
      = Except.ok { st with indexFile := some (fullIndexEntries st.db) } := by
  have hne : get_all_songs_with_features st.db ≠ [] := by
    intro h0
    rw [h0] at hfeat
    simp at hfeat
  have hlen : ¬ (get_all_songs_with_features st.db).length = 0 := by
    omega
  obtain ⟨e, he⟩ := herr
  unfold update_similarity_index_incremental
  rw [if_neg hlen, if_neg hidx, he, rebuild_of_nonempty f _ _ hne hreb]

/-- Witness for C3's amended statement: a corrupt index load (load fault) on
a one-featured-song store, with the fallback rebuild succeeding, ends with
the full index and no error. -/
theorem incremental_failure_fallback_witness :
    update_similarity_index_incremental ⟨true, false, false, false⟩ 0 w1st
      = Except.ok { w1st with indexFile := some (fullIndexEntries w1st.db) } :=
  incremental_failure_fallback ⟨true, false, false, false⟩ 0 w1st (by decide)
    (by decide) ⟨(), rfl⟩ rfl

/-- Counterexample for C3 as stated: when the incremental load raises and the
fallback rebuild's own save also raises (the except-arm rebuild sits in no
inner try), the error propagates out of the maintenance step, and the
persisted file — stale relative to the store — is never replaced by the full
entries. -/
theorem incremental_failure_fallback_counterexample :
    (∃ e, incrementalPath ⟨true, false, false, true⟩ 0 c3st
      = Except.error e) ∧
    update_similarity_index_incremental ⟨true, false, false, true⟩ 0 c3st
      = Except.error () ∧
    c3st.indexFile ≠ some (fullIndexEntries c3st.db) := by
  refine ⟨⟨(), rfl⟩, by decide, by decide⟩

/-- C6 (amended): in the metadata phase a metadata-tag or duration read
failure is non-fatal and every selected file is still processed, but the
failing file is not skipped: fallback metadata (basename title, `"Unknown"`
fields) is written, its stored mtime advances to the on-disk mtime, and no
selected file is reselected by change detection on an unchanged next run. -/
theorem metadata_phase_fallback (env : Env) (db : DB) (files : List String) :
    (extract_metadata_phase env db files).2 = files.length ∧
    (∀ p, p ∈ files →
      get_all_file_paths_with_mtime (extract_metadata_phase env db files).1 p
        = some (env.mtime p)) ∧
    (∀ p, env.tagsOf p = none →
      extract_metadata env p
        = ⟨basename p, "Unknown", "Unknown", "Unknown"⟩) ∧
    get_files_to_process (extract_metadata_phase env db files).1 files
      env.mtime = [] := by
  refine ⟨extract_metadata_phase_count env db files, ?_, ?_, ?_⟩
  · intro p hp
    rw [lookup_extract_metadata_phase, if_pos hp]
  · intro p hp
    unfold extract_metadata
    rw [hp]
  · unfold get_files_to_process
    apply List.filter_eq_nil_iff.mpr
    intro f hf
    rw [lookup_extract_metadata_phase, if_pos hf]
    simp

/-- Witness for C6's amended statement: the mutagen-failure file's stored
mtime equals the on-disk mtime after the phase, and the fallback metadata is
used. -/
theorem metadata_phase_fallback_witness :
    get_all_file_paths_with_mtime
        (extract_metadata_phase c6env ⟨[], 0⟩ ["m/x.mp3"]).1 "m/x.mp3"
      = some (c6env.mtime "m/x.mp3") ∧
    extract_metadata c6env "m/x.mp3"
      = ⟨basename "m/x.mp3", "Unknown", "Unknown", "Unknown"⟩ :=
  ⟨(metadata_phase_fallback c6env ⟨[], 0⟩ ["m/x.mp3"]).2.1 "m/x.mp3" (by decide),
   (metadata_phase_fallback c6env ⟨[], 0⟩ ["m/x.mp3"]).2.2.1 "m/x.mp3" rfl⟩

/-- Counterexample for C6 as stated: a file whose mutagen read raises is not
skipped — it is processed with fallback metadata, its Track row is written
with the on-disk mtime, and it is not selected by change detection on a
subsequent unchanged run. -/
theorem metadata_phase_fallback_counterexample :
    extract_metadata c6env "m/x.mp3"
      = ⟨"x.mp3", "Unknown", "Unknown", "Unknown"⟩ ∧
    extract_metadata_phase c6env ⟨[], 0⟩ ["m/x.mp3"]
      = (⟨[⟨0, "m/x.mp3", ⟨"x.mp3", "Unknown", "Unknown", "Unknown"⟩,
          5, none, none⟩], 1⟩, 1) ∧
    get_files_to_process (extract_metadata_phase c6env ⟨[], 0⟩ ["m/x.mp3"]).1
      ["m/x.mp3"] c6env.mtime = [] := by
  refine ⟨by decide, by decide, by decide⟩

theorem db3_classify (env : Env) (db1 : DB) (files : List String) (r : Row)
    (hr : r ∈ (clean_deleted_files (extract_features_phase env db1).1
      files).rows) :
    r.file_path ∈ files ∧
    (r.features.isSome = true ∨
      (env.featuresOf r.file_path = none ∧ r.features = none)) := by
  unfold clean_deleted_files at hr
  simp only [List.mem_filter] at hr
  obtain ⟨hr2, hcon⟩ := hr
  have hpath : r.file_path ∈ files := List.elem_iff.mp hcon
  refine ⟨hpath, ?_⟩
  rw [extract_features_phase_rows] at hr2
  obtain ⟨r0, hr0, rfl⟩ := List.mem_map.mp hr2
  by_cases hs : (ftApply env (get_songs_without_features db1) r0).features.isSome = true
  · exact Or.inl hs
  · have hfnone : (ftApply env (get_songs_without_features db1) r0).features
        = none := by
      cases hfe : (ftApply env (get_songs_without_features db1) r0).features with
      | none => rfl
      | some f => exact absurd (by rw [hfe]; rfl) hs
    have hr0none : r0.features = none := by
      by_contra hc
      have hc2 : r0.features.isSome = true := Option.ne_none_iff_isSome.mp hc
      exact hs (ftApply_mono env _ r0 hc2)
    have hr0todo : r0 ∈ get_songs_without_features db1 := by
      unfold get_songs_without_features
      exact List.mem_filter.mpr ⟨hr0, by simp [hr0none]⟩
    cases he : env.featuresOf
        (ftApply env (get_songs_without_features db1) r0).file_path with
    | none => exact Or.inr ⟨rfl, hfnone⟩
    | some f =>
      exfalso
      apply hs
      apply ftApply_hit
      refine ⟨r0, hr0todo, rfl, ?_⟩
      rw [← (ftApply_file_path env (get_songs_without_features db1) r0).1, he]
      rfl

theorem db3_todo_none (env : Env) (db1 : DB) (files : List String) :
    ∀ t ∈ get_songs_without_features
      (clean_deleted_files (extract_features_phase env db1).1 files),
      env.featuresOf t.file_path = none := by
  intro t ht
  unfold get_songs_without_features at ht
  obtain ⟨htrows, htnone⟩ := List.mem_filter.mp ht
  have hclass := db3_classify env db1 files t htrows
  rcases hclass.2 with hs | ⟨he, _⟩
  · exfalso
    rw [Option.isNone_iff_eq_none] at htnone
    rw [htnone] at hs
    cases hs
  · exact he

theorem extract_features_phase_nochange (env : Env) (db : DB)
    (h : ∀ t ∈ get_songs_without_features db,
      env.featuresOf t.file_path = none) :
    extract_features_phase env db = (db, 0) := by
  unfold extract_features_phase
  exact ftfold_nochange env _ db 0 h

theorem index_library_ok_db (env : Env) (f : Faults) (st st' : IdxState)
    (h : index_library env f st = Except.ok st') :
    st'.db
      = clean_deleted_files
          (extract_features_phase env
            (extract_metadata_phase env st.db
              (get_files_to_process st.db (scan_files env.walk)
                env.mtime)).1).1
          (scan_files env.walk) := by
  simp only [index_library] at h
  split at h
  · exact update_ok_db f _ _ st' h
  · cases h
    rfl

theorem index_library_noFaults_ok (env : Env) (st : IdxState) :
    ∃ st', index_library env noFaults st = Except.ok st' := by
  simp only [index_library]
  split
  · exact update_noFaults_ok _ _
  · exact ⟨_, rfl⟩

theorem index_library_indexFile_noop (env : Env) (f : Faults) (st : IdxState)
    (h1 : get_files_to_process st.db (scan_files env.walk) env.mtime = [])
    (h2 : extract_features_phase env st.db = (st.db, 0))
    (h3 : clean_deleted_files st.db (scan_files env.walk) = st.db) :
    index_library env f st = Except.ok st := by
  simp only [index_library]
  rw [h1]
  have hmd : extract_metadata_phase env st.db [] = (st.db, 0) := rfl
  rw [hmd]
  dsimp only
  rw [h2]
  dsimp only
  rw [h3]
  rw [if_neg (by simp)]

theorem second_sel_empty (env : Env) (st0 st1 : IdxState)
    (h : index_library env noFaults st0 = Except.ok st1) :
    get_files_to_process st1.db (scan_files env.walk) env.mtime = [] := by
  apply List.eq_nil_iff_forall_not_mem.mpr
  intro f
  rw [mem_get_files_to_process]
  rintro ⟨hf, hcase⟩
  have hlook : get_all_file_paths_with_mtime st1.db f
      = if f ∈ get_files_to_process st0.db (scan_files env.walk) env.mtime
        then some (env.mtime f)
        else get_all_file_paths_with_mtime st0.db f := by
    rw [index_library_ok_db env noFaults st0 st1 h, lookup_clean _ _ _ hf,
      lookup_extract_features_phase, lookup_extract_metadata_phase]
  by_cases hselc : f ∈ get_files_to_process st0.db (scan_files env.walk)
      env.mtime
  · rw [if_pos hselc] at hlook
    rcases hcase with hnone | ⟨t, hsome, hgt⟩
    · rw [hlook] at hnone
      cases hnone
    · rw [hlook] at hsome
      cases hsome
      exact lt_irrefl _ hgt
  · rw [if_neg hselc] at hlook
    rw [hlook] at hcase
    exact hselc ((mem_get_files_to_process st0.db (scan_files env.walk)
      env.mtime f).mpr ⟨hf, hcase⟩)

/-- C5 (amended): a second `index_library` run with no filesystem changes
selects zero files in change detection, successfully processes zero tracks in
the feature phase, and leaves the store and the persisted index byte-for-byte
unchanged; the feature phase finds no tracks lacking features provided every
scanned file's analysis succeeds (a persistently failing track is re-examined
on the second run, though it changes nothing). -/
theorem index_library_second_run (env : Env) (st0 : IdxState) :
    ∃ st1, index_library env noFaults st0 = Except.ok st1 ∧
      get_files_to_process st1.db (scan_files env.walk) env.mtime = [] ∧
      (extract_features_phase env st1.db).2 = 0 ∧
      index_library env noFaults st1 = Except.ok st1 ∧
      ((∀ p ∈ scan_files env.walk, (env.featuresOf p).isSome = true) →
        get_songs_without_features st1.db = []) := by
  obtain ⟨st1, hst1⟩ := index_library_noFaults_ok env st0
  have hdb := index_library_ok_db env noFaults st0 st1 hst1
  have hft : extract_features_phase env st1.db = (st1.db, 0) := by
    rw [hdb]
    exact extract_features_phase_nochange env _
      (db3_todo_none env _ (scan_files env.walk))
  have hcl : clean_deleted_files st1.db (scan_files env.walk) = st1.db := by
    rw [hdb]
    exact clean_idem _ _
  refine ⟨st1, hst1, second_sel_empty env st0 st1 hst1, by rw [hft], ?_, ?_⟩
  · exact index_library_indexFile_noop env noFaults st1
      (second_sel_empty env st0 st1 hst1) hft hcl
  · intro hall
    rw [hdb]
    unfold get_songs_without_features
    apply List.filter_eq_nil_iff.mpr
    intro r hr
    have hclass := db3_classify env _ (scan_files env.walk) r hr
    rcases hclass.2 with hs | ⟨he, _⟩
    · simp [Option.isNone_iff_eq_none]
      intro hnone
      rw [hnone] at hs
      cases hs
    · exfalso
      have hsome := hall r.file_path hclass.1
      rw [he] at hsome
      cases hsome

/-- Witness for C5's amended statement: a one-file library indexed from an
empty store succeeds, reaches a fixed point after one run, and with analysis
succeeding everywhere no track lacks features. -/
theorem index_library_second_run_witness :
    ∃ st1, index_library w1env noFaults ⟨⟨[], 0⟩, none⟩ = Except.ok st1 ∧
      index_library w1env noFaults st1 = Except.ok st1 ∧
      get_songs_without_features st1.db = [] := by
  obtain ⟨st1, h1, _, _, h4, h5⟩ :=
    index_library_second_run w1env ⟨⟨[], 0⟩, none⟩
  exact ⟨st1, h1, h4, h5 (by decide)⟩

/-- Counterexample for C5 as stated: with a file whose feature analysis
persistently fails, the first run leaves one track lacking features, so the
second run's feature phase does find a track lacking features and re-examines
it — although the state still reaches a fixed point. -/
theorem index_library_second_run_counterexample :
    index_library c5env noFaults ⟨⟨[], 0⟩, none⟩ = Except.ok c5st1 ∧
    get_songs_without_features c5st1.db ≠ [] ∧
    index_library c5env noFaults c5st1 = Except.ok c5st1 := by
  refine ⟨by decide, by decide, by decide⟩

theorem find_seed_songs_eq (rows : List Row) (seeds : List Seed)
    (huniq : ∀ t a al, (exactMatches rows t a al).length ≤ 1) :
    find_seed_songs rows seeds
      = Except.ok (seeds.filterMap (resolveSeed rows)) := by
  induction seeds with
  | nil => rfl
  | cons s rest ih =>
    rw [List.filterMap_cons]
    cases ht : truthy s.title with
    | none =>
      have hres : resolveSeed rows s = none := by
        unfold resolveSeed
        rw [ht]
      simp only [find_seed_songs, ht, hres, ih]
    | some t =>
      cases ha : truthy s.artist with
      | none =>
        have hres : resolveSeed rows s = none := by
          unfold resolveSeed
          rw [ht, ha]
        simp only [find_seed_songs, ht, ha, hres, ih]
      | some a =>
        cases hal : truthy s.album with
        | none =>
          have hres : resolveSeed rows s = none := by
            unfold resolveSeed
            rw [ht, ha, hal]
          simp only [find_seed_songs, ht, ha, hal, hres, ih]
        | some al =>
          have hres : resolveSeed rows s = (exactMatches rows t a al).head? := by
            unfold resolveSeed
            rw [ht, ha, hal]
          cases hm : exactMatches rows t a al with
          | nil =>
            have hfse : find_song_exact rows t a al = Except.ok none := by
              unfold find_song_exact
              rw [hm]
            simp only [find_seed_songs, ht, ha, hal, hfse, hres, hm,
              List.head?_nil, ih]
          | cons m tl =>
            cases tl with
            | nil =>
              have hfse : find_song_exact rows t a al
                  = Except.ok (some m) := by
                unfold find_song_exact
                rw [hm]
              simp only [find_seed_songs, ht, ha, hal, hfse, hres, hm,
                List.head?_cons, ih]
            | cons m2 tl2 =>
              exfalso
              have := huniq t a al
              rw [hm] at this
              simp at this

/-- C7: seed specs resolve only by an exact simultaneous match on title,
artist and album (never fuzzily); a spec with a missing or empty field, or
with no exact match, is dropped; and when the seed list is nonempty but zero
specs resolve, generate fails with the NoSeedsFound error rather than
returning a playlist. -/
theorem seed_resolution_exact (rows : List Row) (seeds : List Seed)
    (huniq : ∀ t a al, (exactMatches rows t a al).length ≤ 1) :
    find_seed_songs rows seeds
      = Except.ok (seeds.filterMap (resolveSeed rows)) ∧
    (∀ (search : List ℚ → ℕ → List ℤ) (sample : ℕ → ℕ → List ℕ)
        (jitter : ℕ → ℚ) (noise : List ℚ) (len : ℕ) (scale : ℚ) (mult : ℕ),
      seeds ≠ [] → seeds.filterMap (resolveSeed rows) = [] →
      generate rows search sample jitter noise seeds len scale mult
        = Except.error GenErr.noSeedsFound) := by
  have hfs := find_seed_songs_eq rows seeds huniq
  refine ⟨hfs, ?_⟩
  intro search sample jitter noise len scale mult hne hempty
  unfold generate
  rw [if_neg (fun h => hne (List.isEmpty_iff.mp h))]
  rw [hfs, hempty]
  rfl

/-- Witness for C7: a seed matching nothing resolves to nothing, and generate
fails with NoSeedsFound. -/
theorem seed_resolution_exact_witness :
    find_seed_songs w1db.rows [⟨some "X", some "Y", some "Z"⟩]
      = Except.ok ([(⟨some "X", some "Y", some "Z"⟩ : Seed)].filterMap
          (resolveSeed w1db.rows)) ∧
    generate w1db.rows (fun _ _ => []) (fun _ _ => []) (fun _ => 0) []
        [⟨some "X", some "Y", some "Z"⟩] 5 0 10
      = Except.error GenErr.noSeedsFound := by
  have huniq : ∀ t a al, (exactMatches w1db.rows t a al).length ≤ 1 := by
    intro t a al
    exact le_trans (List.length_filter_le _ _) (by decide)
  exact ⟨(seed_resolution_exact w1db.rows [⟨some "X", some "Y", some "Z"⟩]
      huniq).1,
    (seed_resolution_exact w1db.rows [⟨some "X", some "Y", some "Z"⟩]
      huniq).2 (fun _ _ => []) (fun _ _ => []) (fun _ => 0) [] 5 0 10
      (by decide) (by decide)⟩

/-- C9: when seed resolution and seed vectorization both succeed and the
candidate search yields zero usable tracks, generate returns the normal empty
result `ok none` and raises no error. -/
theorem generate_empty_result (rows : List Row)
    (search : List ℚ → ℕ → List ℤ) (sample : ℕ → ℕ → List ℕ)
    (jitter : ℕ → ℚ) (noise : List ℚ) (seeds : List Seed) (len : ℕ)
    (scale : ℚ) (mult : ℕ) (ss : List Row)
    (h1 : seeds ≠ []) (h2 : find_seed_songs rows seeds = Except.ok ss)
    (h3 : ss ≠ []) (h4 : get_seed_vectors rows ss ≠ [])
    (h5 : find_similar_songs search sample rows
      (perturb_query_vector noise scale
        (compute_average_vector (get_seed_vectors rows ss)))
      len (ss.map (fun s => (s.id : ℤ))) mult = []) :
    generate rows search sample jitter noise seeds len scale mult
      = Except.ok none := by
  unfold generate
  rw [if_neg (fun h => h1 (List.isEmpty_iff.mp h)), h2]
  dsimp only
  rw [if_neg (fun h => h3 (List.isEmpty_iff.mp h))]
  rw [if_neg (fun h => h4 (List.isEmpty_iff.mp h))]
  rw [h5]
  rfl

/-- Witness for C9: a resolvable featured seed with a search returning no
candidates makes generate return `ok none`. -/
theorem generate_empty_result_witness :
    generate w1db.rows (fun _ _ => []) (fun _ _ => []) (fun _ => 0) []
        [⟨some "T", some "A", some "L"⟩] 5 0 10 = Except.ok none :=
  generate_empty_result w1db.rows (fun _ _ => []) (fun _ _ => [])
    (fun _ => 0) [] [⟨some "T", some "A", some "L"⟩] 5 0 10
    [⟨1, "r/a.mp3", ⟨"T", "A", "L", "G"⟩, 1, some 100, some ⟨[1], 100⟩⟩]
    (by decide) (by rfl) (by decide) (by decide) (by rfl)

end VibeDJ
